import Mathlib

/-!
Verification of the extraction pipeline of the Multilingual Invoice Extractor
(`src/app.py`) against its natural-language specification.

The embedding models the pipeline as pure Lean functions:

* `clean_json_string` — the fence-stripping cleanup (`app.py`, lines 39-48),
  working on `List Char` exactly as Python slicing/`strip` does on `str`.
* `json_loads` — a model of Python's `json.loads` as used by the handler
  (`app.py`, line 176): a fuel-based recursive-descent parser of the JSON
  grammar (strings with escapes, numbers kept as their lexeme, literals,
  arrays, objects with Python's duplicate-key handling).
* `get_gemini_response` — the Extraction Client (`app.py`, lines 51-75); the
  external network call is abstracted as an `Except String GeminiResponse`
  oracle (exception or response object).
* `extract_button` / `app_run` — the "Extract Information" button handler
  (`app.py`, lines 165-208) and the upload-processing branch (lines 86-104);
  Streamlit display calls are modelled by the constructors of
  `PipelineOutcome` / `AppOutcome` recording what the user is shown.

Notation used below: `lbrace`/`rbrace` stand for the two curly-bracket
characters, written via their code points.
-/

/-- The left curly-bracket character. -/
def lbrace : Char := Char.ofNat 123

/-- The right curly-bracket character. -/
def rbrace : Char := Char.ofNat 125

/-- Whitespace stripped by Python `str.strip()` (the ASCII / Latin-1 portion,
which is all the pipeline can meet in practice). -/
def pySpace (c : Char) : Bool :=
  c = ' ' ∨ c = '\t' ∨ c = '\n' ∨ c = '\r' ∨ c = '\x0b' ∨ c = '\x0c' ∨
  c = '\x1c' ∨ c = '\x1d' ∨ c = '\x1e' ∨ c = '\x1f' ∨ c = '\x85' ∨ c = '\xa0'

/-- Python `str.strip()` on a character list: drop leading and trailing runs
of whitespace. -/
def pyStripChars (cs : List Char) : List Char :=
  ((cs.dropWhile pySpace).reverse.dropWhile pySpace).reverse

/-- Python `str.strip()` on a string. -/
def pyStrip (s : String) : String := ⟨pyStripChars s.data⟩

/-- The characters of the leading fence marker `"```json"` tested by
`json_string.startswith` in `clean_json_string`. -/
def fenceChars : List Char := "```json".data

/-- The characters of the trailing fence marker tested by
`json_string.endswith` in `clean_json_string`. -/
def tickChars : List Char := "```".data

/-- Model of `clean_json_string` (`app.py`, lines 39-48) on a character list:
drop a leading `"```json"` (7 characters, Python `json_string[7:]`), then a
trailing `"```"` (Python `json_string[:-3]`), then strip whitespace. -/
def cleanChars (cs : List Char) : List Char :=
  let cs1 := if fenceChars.isPrefixOf cs then cs.drop 7 else cs
  let cs2 := if tickChars.isPrefixOf cs1.reverse then cs1.take (cs1.length - 3) else cs1
  pyStripChars cs2

/-- The fence-stripping cleanup `clean_json_string` of `app.py` (lines 39-48),
as a function on Lean strings. -/
def clean_json_string (json_string : String) : String :=
  ⟨cleanChars json_string.data⟩

/-- The model identifier constant of `app.py` (line 28). -/
def model_name : String := "gemini-1.5-flash"

/-! ### JSON values and a model of Python `json.loads` -/

/-- A parsed JSON value, as produced by Python's `json` module. Numbers are
kept as their source lexeme (the pipeline never computes with them; Python
would convert to `int`/`float`). Objects are association lists in insertion
order, as Python `dict` preserves it. -/
inductive Json where
  | null
  | bool (b : Bool)
  | num (lexeme : String)
  | str (s : String)
  | arr (elems : List Json)
  | obj (members : List (String × Json))

/-- JSON whitespace skipped by Python's `json` scanner (space, tab, newline,
carriage return). -/
def isJsonWs (c : Char) : Bool := c = ' ' ∨ c = '\t' ∨ c = '\n' ∨ c = '\r'

/-- Skip a run of JSON whitespace. -/
def skipWs (cs : List Char) : List Char :=
  match cs with
  | [] => []
  | c :: rest => if isJsonWs c then skipWs rest else cs

/-- Numeric value of one hexadecimal digit (Python accepts both cases in
`\uXXXX` escapes). -/
def hexVal (c : Char) : Option Nat :=
  if c.isDigit then some (c.toNat - 48)
  else if 'a' ≤ c ∧ c ≤ 'f' then some (c.toNat - 87)
  else if 'A' ≤ c ∧ c ≤ 'F' then some (c.toNat - 55)
  else none

/-- Combine four hexadecimal digits into a code unit. -/
def hex4 (a b c d : Char) : Option Nat :=
  (hexVal a).bind fun va =>
    (hexVal b).bind fun vb =>
      (hexVal c).bind fun vc =>
        (hexVal d).map fun vd => ((va * 16 + vb) * 16 + vc) * 16 + vd

/-- The single-character JSON escapes, as the table Python's scanner keeps
(its `BACKSLASH` dictionary). -/
def unescape (e : Char) : Option Char :=
  List.lookup e
    [('"', '"'), ('\\', '\\'), ('/', '/'), ('b', '\x08'),
     ('f', '\x0c'), ('n', '\n'), ('r', '\r'), ('t', '\t')]

/-- Parse the body of a JSON string after the opening quote, in Python's
strict mode: unescaped control characters are rejected, `\uXXXX` escapes are
decoded with surrogate-pair combination. (Python tolerates lone surrogates in
its strings; Lean strings cannot hold them, so a lone surrogate decodes
through `Char.ofNat`'s fallback — no pipeline claim depends on that corner.) -/
def parseJStringAux : Nat → List Char → List Char → Option (String × List Char)
  | 0, _, _ => none
  | _ + 1, acc, '"' :: rest => some (⟨acc.reverse⟩, rest)
  | f + 1, acc, '\\' :: 'u' :: a :: b :: c :: d :: rest =>
    (match hex4 a b c d with
     | none => none
     | some n =>
       if 0xD800 ≤ n ∧ n < 0xDC00 then
         match rest with
         | '\\' :: 'u' :: a2 :: b2 :: c2 :: d2 :: rest2 =>
           (match hex4 a2 b2 c2 d2 with
            | none => none
            | some m =>
              if 0xDC00 ≤ m ∧ m < 0xE000 then
                parseJStringAux f
                  (Char.ofNat (0x10000 + (n - 0xD800) * 0x400 + (m - 0xDC00)) :: acc) rest2
              else parseJStringAux f (Char.ofNat n :: acc) rest)
         | _ => parseJStringAux f (Char.ofNat n :: acc) rest
       else parseJStringAux f (Char.ofNat n :: acc) rest)
  | f + 1, acc, '\\' :: e :: rest =>
    (match unescape e with
     | some ch => parseJStringAux f (ch :: acc) rest
     | none => none)
  | f + 1, acc, c :: rest =>
    if c.toNat < 0x20 then none else parseJStringAux f (c :: acc) rest
  | _ + 1, _, [] => none

/-- Parse a JSON string body. Every step of `parseJStringAux` consumes at
least one input character, so `length + 1` fuel always suffices. -/
def parseJString (cs : List Char) : Option (String × List Char) :=
  parseJStringAux (cs.length + 1) [] cs

/-- Longest leading digit run of a character list, and the remainder. -/
def takeDigits : List Char → List Char × List Char
  | c :: cs => if c.isDigit then
      let p := takeDigits cs
      (c :: p.1, p.2)
    else ([], c :: cs)
  | [] => ([], [])

/-- Optional fraction and exponent parts of a number lexeme, following
Python's `NUMBER_RE`: each part is consumed only when completely present,
otherwise left for the caller (where it then fails as trailing data). -/
def parseNumTail (intPart : List Char) (cs : List Char) : List Char × List Char :=
  let fr : List Char × List Char :=
    match cs with
    | '.' :: r =>
      let p := takeDigits r
      if p.1 = [] then ([], cs) else ('.' :: p.1, p.2)
    | _ => ([], cs)
  let ex : List Char × List Char :=
    match fr.2 with
    | 'e' :: r =>
      (match r with
       | '+' :: r2 =>
         let p := takeDigits r2
         if p.1 = [] then ([], fr.2) else ('e' :: '+' :: p.1, p.2)
       | '-' :: r2 =>
         let p := takeDigits r2
         if p.1 = [] then ([], fr.2) else ('e' :: '-' :: p.1, p.2)
       | _ =>
         let p := takeDigits r
         if p.1 = [] then ([], fr.2) else ('e' :: p.1, p.2))
    | 'E' :: r =>
      (match r with
       | '+' :: r2 =>
         let p := takeDigits r2
         if p.1 = [] then ([], fr.2) else ('E' :: '+' :: p.1, p.2)
       | '-' :: r2 =>
         let p := takeDigits r2
         if p.1 = [] then ([], fr.2) else ('E' :: '-' :: p.1, p.2)
       | _ =>
         let p := takeDigits r
         if p.1 = [] then ([], fr.2) else ('E' :: p.1, p.2))
    | _ => ([], fr.2)
  (intPart ++ fr.1 ++ ex.1, ex.2)

/-- Parse a JSON number lexeme (optional sign, `0` or a nonzero-led digit run,
optional fraction, optional exponent), as Python's number regular expression
matches it. -/
def parseNumber (cs : List Char) : Option (List Char × List Char) :=
  match cs with
  | '-' :: cs1 =>
    (match cs1 with
     | '0' :: r => some (parseNumTail ['-', '0'] r)
     | c :: _ =>
       if c.isDigit then
         let p := takeDigits cs1
         some (parseNumTail ('-' :: p.1) p.2)
       else none
     | [] => none)
  | '0' :: r => some (parseNumTail ['0'] r)
  | c :: _ =>
    if c.isDigit then
      let p := takeDigits cs
      some (parseNumTail p.1 p.2)
    else none
  | [] => none

/-- Insert a key into an object association list the way a Python `dict`
does while the object is being built: an existing key keeps its position and
takes the new value, a new key is appended. -/
def objInsert (acc : List (String × Json)) (k : String) (v : Json) :
    List (String × Json) :=
  if acc.any (fun kv => kv.1 = k) then
    acc.map (fun kv => if kv.1 = k then (k, v) else kv)
  else acc ++ [(k, v)]

mutual

/-- Parse one JSON value; fuel makes the mutual recursion structural. -/
def parseValue : Nat → List Char → Option (Json × List Char)
  | 0, _ => none
  | f + 1, cs =>
    match skipWs cs with
    | [] => none
    | c :: rest =>
      if c = '"' then
        (match parseJString rest with
         | some (s, r) => some (Json.str s, r)
         | none => none)
      else if c = '[' then
        (match skipWs rest with
         | r0 :: r => if r0 = ']' then some (Json.arr [], r) else parseElems f rest []
         | [] => none)
      else if c = lbrace then
        (match skipWs rest with
         | r0 :: r => if r0 = rbrace then some (Json.obj [], r) else parseMembers f rest []
         | [] => none)
      else if c = 't' then
        (match rest with
         | 'r' :: 'u' :: 'e' :: r => some (Json.bool true, r)
         | _ => none)
      else if c = 'f' then
        (match rest with
         | 'a' :: 'l' :: 's' :: 'e' :: r => some (Json.bool false, r)
         | _ => none)
      else if c = 'n' then
        (match rest with
         | 'u' :: 'l' :: 'l' :: r => some (Json.null, r)
         | _ => none)
      else if c = 'N' then
        (match rest with
         | 'a' :: 'N' :: r => some (Json.num "NaN", r)
         | _ => none)
      else if c = 'I' then
        (match rest with
         | 'n' :: 'f' :: 'i' :: 'n' :: 'i' :: 't' :: 'y' :: r =>
           some (Json.num "Infinity", r)
         | _ => none)
      else if c = '-' then
        (match rest with
         | 'I' :: 'n' :: 'f' :: 'i' :: 'n' :: 'i' :: 't' :: 'y' :: r =>
           some (Json.num "-Infinity", r)
         | _ =>
           match parseNumber (c :: rest) with
           | some (lex, r) => some (Json.num ⟨lex⟩, r)
           | none => none)
      else
        (match parseNumber (c :: rest) with
         | some (lex, r) => some (Json.num ⟨lex⟩, r)
         | none => none)

/-- Parse the elements of a nonempty array (after the opening bracket). -/
def parseElems : Nat → List Char → List Json → Option (Json × List Char)
  | 0, _, _ => none
  | f + 1, cs, acc =>
    match parseValue f cs with
    | some (v, r) =>
      (match skipWs r with
       | c :: r2 =>
         if c = ',' then parseElems f r2 (acc ++ [v])
         else if c = ']' then some (Json.arr (acc ++ [v]), r2)
         else none
       | [] => none)
    | none => none

/-- Parse the members of a nonempty object (after the opening bracket). -/
def parseMembers : Nat → List Char → List (String × Json) → Option (Json × List Char)
  | 0, _, _ => none
  | f + 1, cs, acc =>
    match skipWs cs with
    | c :: rest =>
      if c = '"' then
        match parseJString rest with
        | some (k, r1) =>
          (match skipWs r1 with
           | c2 :: r2 =>
             if c2 = ':' then
               match parseValue f r2 with
               | some (v, r3) =>
                 (match skipWs r3 with
                  | c3 :: r4 =>
                    if c3 = ',' then parseMembers f r4 (objInsert acc k v)
                    else if c3 = rbrace then some (Json.obj (objInsert acc k v), r4)
                    else none
                  | [] => none)
               | none => none
             else none
           | [] => none)
        | none => none
      else none
    | [] => none

end

/-- Model of Python `json.loads` as called by the button handler (`app.py`,
line 176): parse one JSON document and reject trailing data. The fuel
`2 * length + 2` dominates the parser's needs (each two fuel steps consume at
least one character). `none` models `json.JSONDecodeError`. -/
def json_loads (s : String) : Option Json :=
  match parseValue (2 * s.length + 2) s.data with
  | some (v, rest) => if skipWs rest = [] then some v else none
  | none => none

/-! ### The InvoiceRecord data model and its JSON serialization -/

/-- One line item of the spec's data model: four scalar fields, each a string
or the sentinel. -/
structure LineItem where
  description : String
  quantity : String
  unit_price : String
  line_total : String
deriving DecidableEq

/-- The spec's InvoiceRecord: ten scalar fields plus the ordered line items.
The field names are the keys of the JSON schema in the prompt of `app.py`. -/
structure InvoiceRecord where
  invoice_id : String
  invoice_date : String
  due_date : String
  biller_name : String
  biller_address : String
  customer_name : String
  customer_address : String
  subtotal : String
  total_tax : String
  total_amount : String
  line_items : List LineItem
deriving DecidableEq

/-- The lowercase hexadecimal digit character for a value below sixteen. -/
def toHexChar (n : Nat) : Char :=
  Char.ofNat (if n < 10 then 48 + n else 87 + n)

/-- JSON-escape one character the way a standard serializer does (quote,
backslash, short escapes, `\u00XX` for remaining control characters; other
characters stand for themselves). -/
def escapeChar (c : Char) : List Char :=
  if c = '"' then ['\\', '"']
  else if c = '\\' then ['\\', '\\']
  else if c = '\n' then ['\\', 'n']
  else if c = '\r' then ['\\', 'r']
  else if c = '\t' then ['\\', 't']
  else if c = '\x08' then ['\\', 'b']
  else if c = '\x0c' then ['\\', 'f']
  else if c.toNat < 0x20 then
    ['\\', 'u', '0', '0', toHexChar (c.toNat / 16), toHexChar (c.toNat % 16)]
  else [c]

/-- The escaped body of a serialized JSON string. -/
def escList (s : String) : List Char := s.data.flatMap escapeChar

/-- A serialized JSON string, quotes included. -/
def serStr (s : String) : List Char := '"' :: (escList s ++ ['"'])

/-- One serialized object member with a string value. -/
def serMember (k v : String) : List Char := serStr k ++ ':' :: serStr v

/-- The member list of one serialized line item, between its brackets. -/
def serItemInner (it : LineItem) : List Char :=
  serMember "description" it.description ++
    ',' :: (serMember "quantity" it.quantity ++
      ',' :: (serMember "unit_price" it.unit_price ++
        ',' :: serMember "line_total" it.line_total))

/-- One serialized line item: a JSON object with the four line-item keys. -/
def serItem (it : LineItem) : List Char :=
  lbrace :: (serItemInner it ++ [rbrace])

/-- Comma-separated serialized line items. -/
def serItems : List LineItem → List Char
  | [] => []
  | [it] => serItem it
  | it :: rest => serItem it ++ ',' :: serItems rest

/-- The serialized `line_items` member: key and array value. -/
def serItemsMember (items : List LineItem) : List Char :=
  serStr "line_items" ++ ':' :: '[' :: (serItems items ++ [']'])

/-- The member list of a serialized InvoiceRecord, between its brackets: the
ten scalar members in schema order and then the `line_items` member. -/
def serRecordInner (R : InvoiceRecord) : List Char :=
  serMember "invoice_id" R.invoice_id ++
    ',' :: (serMember "invoice_date" R.invoice_date ++
      ',' :: (serMember "due_date" R.due_date ++
        ',' :: (serMember "biller_name" R.biller_name ++
          ',' :: (serMember "biller_address" R.biller_address ++
            ',' :: (serMember "customer_name" R.customer_name ++
              ',' :: (serMember "customer_address" R.customer_address ++
                ',' :: (serMember "subtotal" R.subtotal ++
                  ',' :: (serMember "total_tax" R.total_tax ++
                    ',' :: (serMember "total_amount" R.total_amount ++
                      ',' :: serItemsMember R.line_items)))))))))

/-- The character list of a serialized InvoiceRecord: one JSON object. -/
def serRecordChars (R : InvoiceRecord) : List Char :=
  lbrace :: (serRecordInner R ++ [rbrace])

/-- Serialize an InvoiceRecord to JSON text ("serializing R to JSON" in the
spec's round-trip property). -/
def serRecord (R : InvoiceRecord) : String := ⟨serRecordChars R⟩

/-- The JSON value a parser recovers from one serialized line item. -/
def LineItem.toJson (it : LineItem) : Json :=
  Json.obj [("description", Json.str it.description),
            ("quantity", Json.str it.quantity),
            ("unit_price", Json.str it.unit_price),
            ("line_total", Json.str it.line_total)]

/-- The JSON value a parser recovers from a serialized InvoiceRecord. -/
def InvoiceRecord.toJson (R : InvoiceRecord) : Json :=
  Json.obj [("invoice_id", Json.str R.invoice_id),
            ("invoice_date", Json.str R.invoice_date),
            ("due_date", Json.str R.due_date),
            ("biller_name", Json.str R.biller_name),
            ("biller_address", Json.str R.biller_address),
            ("customer_name", Json.str R.customer_name),
            ("customer_address", Json.str R.customer_address),
            ("subtotal", Json.str R.subtotal),
            ("total_tax", Json.str R.total_tax),
            ("total_amount", Json.str R.total_amount),
            ("line_items", Json.arr (R.line_items.map LineItem.toJson))]

/-- Read a string-valued key of a JSON object. -/
def getStrKey (kvs : List (String × Json)) (k : String) : Option String :=
  match List.lookup k kvs with
  | some (Json.str s) => some s
  | _ => none

/-- Recover a LineItem from a JSON value (all four keys present as strings). -/
def LineItem.ofJson : Json → Option LineItem
  | Json.obj kvs =>
    (getStrKey kvs "description").bind fun d =>
      (getStrKey kvs "quantity").bind fun q =>
        (getStrKey kvs "unit_price").bind fun u =>
          (getStrKey kvs "line_total").map fun t =>
            { description := d, quantity := q, unit_price := u, line_total := t }
  | _ => none

/-- Recover an InvoiceRecord from a JSON value: the ten scalar keys present as
strings and `line_items` an array of well-formed entries. -/
def InvoiceRecord.ofJson : Json → Option InvoiceRecord
  | Json.obj kvs =>
    (getStrKey kvs "invoice_id").bind fun f1 =>
      (getStrKey kvs "invoice_date").bind fun f2 =>
        (getStrKey kvs "due_date").bind fun f3 =>
          (getStrKey kvs "biller_name").bind fun f4 =>
            (getStrKey kvs "biller_address").bind fun f5 =>
              (getStrKey kvs "customer_name").bind fun f6 =>
                (getStrKey kvs "customer_address").bind fun f7 =>
                  (getStrKey kvs "subtotal").bind fun f8 =>
                    (getStrKey kvs "total_tax").bind fun f9 =>
                      (getStrKey kvs "total_amount").bind fun f10 =>
                        (match List.lookup "line_items" kvs with
                         | some (Json.arr xs) => xs.mapM LineItem.ofJson
                         | _ => none).map fun items =>
                          { invoice_id := f1, invoice_date := f2, due_date := f3,
                            biller_name := f4, biller_address := f5,
                            customer_name := f6, customer_address := f7,
                            subtotal := f8, total_tax := f9, total_amount := f10,
                            line_items := items }
  | _ => none

/-! ### The Extraction Client and the button handler -/

/-- A page image, abstracted: the pipeline moves page images around but never
inspects their pixels. -/
structure PageImage where
  bits : Nat
deriving DecidableEq

/-- What the external model call yields on success: the response text and the
usage counters of `response.usage_metadata`. -/
structure GeminiResponse where
  text : String
  promptTokenCount : Nat
  candidatesTokenCount : Nat
  totalTokenCount : Nat
deriving DecidableEq

/-- What `get_gemini_response` leaves behind: its return value (`None` on
failure) and the error message shown via `st.error`, if any. -/
structure GeminiCallResult where
  returned : Option String
  errorShown : Option String
deriving DecidableEq

/-- Model of `get_gemini_response` (`app.py`, lines 51-75). The whole model
interaction — model construction, `generate_content`, and the `response.text`
access — sits inside one `try`, abstracted as the `call` oracle: `.ok r` for a
response, `.error e` for any raised exception. On success the function returns
the response text already passed through `clean_json_string`; on failure it
shows an error and returns `None`. Nothing else — in particular no usage
counters — is returned. -/
def get_gemini_response (input_prompt : String) (image_list : List PageImage)
    (call : Except String GeminiResponse) : GeminiCallResult :=
  match call with
  | Except.error e =>
    { returned := none,
      errorShown := some ("An error occurred with the Gemini API: " ++ e) }
  | Except.ok r =>
    { returned := some (clean_json_string r.text), errorShown := none }

/-- Python truthiness of a parsed JSON value (`if ... and invoice_data['line_items']:`
at `app.py`, line 197). -/
def Json.truthy : Json → Bool
  | Json.null => false
  | Json.bool b => b
  | Json.num lex =>
    ¬((lex.data.filter (fun c => ¬(c = '-' ∨ c = '.' ∨ c = '+'))).takeWhile
        (fun c => ¬(c = 'e' ∨ c = 'E'))).all (fun c => c = '0')
  | Json.str s => ¬s.isEmpty
  | Json.arr xs => ¬xs.isEmpty
  | Json.obj kvs => ¬kvs.isEmpty

/-- What the line-items section of the success screen shows: a dataframe of
the entries, or the "No line items were extracted." warning. -/
inductive LineItemsView where
  | table (items : List Json)
  | noItemsWarning

/-- The observable outcome of one run of the button handler (`app.py`, lines
165-208), naming what the user is shown. `success` carries the displayed
`key_fields` dictionary (all parsed keys except `line_items`) and the
line-items section. `malformedResponse` is the `json.JSONDecodeError` branch
(lines 203-205), `displayError` the generic `except Exception` branch (lines
206-208); both display `shownText` in the raw-response text area. `silent` is
the fall-through when `response_text` is falsy with no error raised. -/
inductive PipelineOutcome where
  | noImagesWarning
  | serviceError (msg : String)
  | silent
  | malformedResponse (shownText : String)
  | displayError (shownText : String)
  | success (key_fields : List (String × Json)) (items : LineItemsView)

/-- Discriminator: did the run end in the `json.JSONDecodeError` branch? -/
def PipelineOutcome.isMalformed : PipelineOutcome → Bool
  | PipelineOutcome.malformedResponse _ => true
  | _ => false

/-- Discriminator: did the run display an extracted record? -/
def PipelineOutcome.isSuccess : PipelineOutcome → Bool
  | PipelineOutcome.success _ _ => true
  | _ => false

/-- Discriminator: did the run show any error or warning report at all? -/
def PipelineOutcome.reportShown : PipelineOutcome → Bool
  | PipelineOutcome.noImagesWarning => true
  | PipelineOutcome.serviceError _ => true
  | PipelineOutcome.malformedResponse _ => true
  | PipelineOutcome.displayError _ => true
  | _ => false

/-- The display step on a successfully parsed top-level object (`app.py`,
lines 179-201): `key_fields` drops the `line_items` key; the line-items
section shows a dataframe when the key is present and truthy (a non-list
truthy value makes `pd.DataFrame` raise, landing in the generic handler),
else the no-items warning. -/
def displayRecord (t : String) (kvs : List (String × Json)) : PipelineOutcome :=
  let key_fields := kvs.filter (fun kv => ¬(kv.1 = "line_items"))
  match List.lookup "line_items" kvs with
  | some v =>
    if v.truthy then
      match v with
      | Json.arr xs => PipelineOutcome.success key_fields (LineItemsView.table xs)
      | _ => PipelineOutcome.displayError t
    else PipelineOutcome.success key_fields LineItemsView.noItemsWarning
  | none => PipelineOutcome.success key_fields LineItemsView.noItemsWarning

/-- The fixed instruction text of `app.py` (lines 109-162), abbreviated to its
schema-bearing last section; its content is never inspected by the pipeline. -/
def input_prompt : String :=
  "You are an expert multilingual data processor specializing in invoices. " ++
  "Extract the 10 key fields and all line items, translate textual values " ++
  "to English, use \x22N/A\x22 when a field is not found, and provide the " ++
  "final output in a single, structured JSON format with a " ++
  "\x27line_items\x27 array."

/-- Model of the "Extract Information" button handler (`app.py`, lines
165-208). The handler warns when no images exist, otherwise calls
`get_gemini_response`; a falsy `response_text` (either `None` after a service
error, or the empty string) skips the whole display block, otherwise
`json.loads` parses it: a `JSONDecodeError` lands in `malformedResponse`; a
parsed non-`dict` raises `AttributeError` at `.items()`, landing in the
generic `displayError` branch; a parsed `dict` is displayed. -/
def extract_button (image_list : List PageImage)
    (call : Except String GeminiResponse) : PipelineOutcome :=
  if image_list = [] then PipelineOutcome.noImagesWarning
  else
    let g := get_gemini_response input_prompt image_list call
    match g.returned with
    | none => PipelineOutcome.serviceError (g.errorShown.getD "")
    | some t =>
      if t = "" then PipelineOutcome.silent
      else
        match json_loads t with
        | none => PipelineOutcome.malformedResponse t
        | some (Json.obj kvs) => displayRecord t kvs
        | some _ => PipelineOutcome.displayError t

/-! ### The upload-processing branch (Document Loader) -/

/-- An uploaded file: its declared media type and name, plus what the external
decoders would yield on its bytes — `pdfPages` the result of
`pdf2image.convert_from_bytes` (a page list in order, or a raised exception),
`imageDecode` the result of `PIL.Image.open`. -/
structure UploadedFile where
  fileType : String
  name : String
  pdfPages : Except String (List PageImage)
  imageDecode : Except String PageImage

/-- The observable outcome of one upload-plus-click round through `app.py`
(lines 86-104 and 165-208). `decodeErrorStop` is the handled PDF failure
(error, poppler warning, `st.stop()`); `uncaughtException` is an exception the
script does not catch (a corrupt image at `Image.open`, or `images[0]` on an
empty page list); `ran` carries the page images handed to the prompt section
and the button handler's outcome. -/
inductive AppOutcome where
  | decodeErrorStop (errMsg : String) (warnMsg : String)
  | uncaughtException (errMsg : String)
  | ran (image_list : List PageImage) (out : PipelineOutcome)

/-- Discriminator: did the run end in the handled PDF-decode error report? -/
def AppOutcome.isDecodeErrorStop : AppOutcome → Bool
  | AppOutcome.decodeErrorStop _ _ => true
  | _ => false

/-- Discriminator: did the run reach the extraction pipeline at all? -/
def AppOutcome.isRan : AppOutcome → Bool
  | AppOutcome.ran _ _ => true
  | _ => false

/-- Does the upload's decode step fail (PDF conversion raises, or the image
payload cannot be identified)? -/
def decodeFails (u : UploadedFile) : Prop :=
  if u.fileType = "application/pdf" then ∃ e, u.pdfPages = Except.error e
  else ∃ e, u.imageDecode = Except.error e

/-- Model of the upload-processing branch plus button click (`app.py`, lines
86-208). A PDF is converted to its page list (the handled failure shows the
error and the poppler warning, then stops; an empty page list would raise
`IndexError` at the `images[0]` preview, uncaught). Any other type goes
through `Image.open`, which is not wrapped in a `try`, so a failure there is
an uncaught exception. With images in hand, the button handler runs. -/
def app_run (u : UploadedFile) (call : Except String GeminiResponse) : AppOutcome :=
  if u.fileType = "application/pdf" then
    match u.pdfPages with
    | Except.error e =>
      AppOutcome.decodeErrorStop ("Failed to process PDF file: " ++ e)
        "Please ensure you have installed the \x27poppler\x27 dependency correctly."
    | Except.ok pages =>
      match pages with
      | [] => AppOutcome.uncaughtException "IndexError: list index out of range"
      | _ => AppOutcome.ran pages (extract_button pages call)
  else
    match u.imageDecode with
    | Except.error e => AppOutcome.uncaughtException e
    | Except.ok img => AppOutcome.ran [img] (extract_button [img] call)

/-! ### Helper lemmas about the cleanup function -/

/-- Cleanup without either fence marker is exactly a whitespace strip. -/
theorem cleanChars_plain (cs : List Char) (h1 : fenceChars.isPrefixOf cs = false)
    (h2 : tickChars.isPrefixOf cs.reverse = false) :
    cleanChars cs = pyStripChars cs := by
  simp [cleanChars, h1, h2]

/-- The leading fence marker is a prefix of anything it is prepended to. -/
theorem fence_isPrefixOf_append (x : List Char) :
    fenceChars.isPrefixOf (fenceChars ++ x) = true := by
  rw [List.isPrefixOf_iff_prefix]
  exact List.prefix_append _ _

/-- Dropping seven characters removes exactly the prepended fence marker. -/
theorem drop_fence (x : List Char) : (fenceChars ++ x).drop 7 = x := rfl

/-- The trailing fence marker is found (via the reversal the embedding uses)
at the end of anything it is appended to. -/
theorem tick_found_at_end (x : List Char) :
    tickChars.isPrefixOf ((x ++ tickChars).reverse) = true := by
  rw [List.reverse_append, List.isPrefixOf_iff_prefix]
  exact List.prefix_append _ _

/-- Taking all but three characters removes exactly the appended marker. -/
theorem take_tick (x : List Char) :
    (x ++ tickChars).take ((x ++ tickChars).length - 3) = x := by
  have h : (x ++ tickChars).length - 3 = x.length := by
    simp [tickChars]
  rw [h, List.take_left]

/-- Cleanup of text wrapped in the two fence markers strips them and then
whitespace, whatever the wrapped text is. -/
theorem cleanChars_wrapped (T : List Char) :
    cleanChars (fenceChars ++ (T ++ tickChars)) = pyStripChars T := by
  simp only [cleanChars, fence_isPrefixOf_append, if_true, drop_fence,
    tick_found_at_end, take_tick]

/-- Character-level form of `clean_json_string` on a string literal append. -/
theorem clean_wrapped_string (T : String) :
    clean_json_string ("```json" ++ T ++ "```") = ⟨pyStripChars T.data⟩ := by
  have h : ("```json" ++ T ++ "```").data = fenceChars ++ (T.data ++ tickChars) := by
    simp [String.data_append, fenceChars, tickChars, List.append_assoc]
  simp only [clean_json_string, h, cleanChars_wrapped]

/-- The display step never lands in the `json.JSONDecodeError` branch: its
outcomes are a success screen or the generic display error. -/
theorem displayRecord_isMalformed (t : String) (kvs : List (String × Json)) :
    (displayRecord t kvs).isMalformed = false := by
  unfold displayRecord
  split
  · split
    · split <;> rfl
    · rfl
  · rfl

/-- The display step is never reported as the malformed-response error. -/
theorem displayRecord_ne_malformed (t x : String) (kvs : List (String × Json)) :
    ¬(displayRecord t kvs = PipelineOutcome.malformedResponse x) := by
  intro heq
  have h1 := congrArg PipelineOutcome.isMalformed heq
  rw [displayRecord_isMalformed] at h1
  exact Bool.noConfusion h1

/-! ### Claim theorems: cleanup, client, and error paths -/

/-- C7: the fence-stripping cleanup is total by construction (a Lean function
defined on every string), and on input carrying neither fence marker it
returns the input with only surrounding whitespace stripped. -/
theorem c7_clean_total_plain (s : String)
    (h1 : fenceChars.isPrefixOf s.data = false)
    (h2 : tickChars.isPrefixOf s.data.reverse = false) :
    clean_json_string s = pyStrip s := by
  simp only [clean_json_string, pyStrip, cleanChars_plain s.data h1 h2]

/-- C7 witness: a concrete fence-free JSON input is merely stripped. -/
theorem c7_witness :
    fenceChars.isPrefixOf (" \x7b\"a\": 1\x7d ").data = false ∧
    tickChars.isPrefixOf (" \x7b\"a\": 1\x7d ").data.reverse = false ∧
    clean_json_string " \x7b\"a\": 1\x7d " = pyStrip " \x7b\"a\": 1\x7d " :=
  ⟨by decide, by decide, c7_clean_total_plain _ (by decide) (by decide)⟩

/-- C5 (amended): wrapping a text in the leading `"```json"` marker and the
trailing `"```"` marker changes nothing about its normalization, provided the
text does not itself begin with the leading marker or end with the trailing
one; both the cleaned text and its parse agree with the unwrapped run. -/
theorem c5_wrapped_equals_unwrapped (T : String)
    (h1 : fenceChars.isPrefixOf T.data = false)
    (h2 : tickChars.isPrefixOf T.data.reverse = false) :
    clean_json_string ("```json" ++ T ++ "```") = clean_json_string T ∧
    json_loads (clean_json_string ("```json" ++ T ++ "```")) =
      json_loads (clean_json_string T) := by
  have h : clean_json_string ("```json" ++ T ++ "```") = clean_json_string T := by
    rw [clean_wrapped_string]
    simp only [clean_json_string, cleanChars_plain T.data h1 h2]
  exact ⟨h, by rw [h]⟩

/-- C5 witness: a concrete fence-free text and its wrapped form clean and
parse identically. -/
theorem c5_witness :
    fenceChars.isPrefixOf ("[1, 2]").data = false ∧
    tickChars.isPrefixOf ("[1, 2]").data.reverse = false ∧
    clean_json_string ("```json" ++ "[1, 2]" ++ "```") = clean_json_string "[1, 2]" :=
  ⟨by decide, by decide,
    (c5_wrapped_equals_unwrapped "[1, 2]" (by decide) (by decide)).1⟩

/-- C5 counterexample: the claim fails for arbitrary text. For
`T = "\"a\"```"` (which itself ends in a fence marker), the unwrapped text
normalizes to the JSON string `"a"` while the wrapped form fails to parse:
the cleanup strips only one trailing marker, so a marker surviving inside the
wrapped text reaches the parser. -/
theorem c5_counterexample :
    json_loads (clean_json_string ("```json" ++ "\"a\"```" ++ "```")) = none ∧
    json_loads (clean_json_string "\"a\"```") = some (Json.str "a") :=
  ⟨rfl, rfl⟩

/-- C3 (amended): on a successful call the Extraction Client returns exactly
the fence-cleaned response text and reports no error; in particular its
return value does not carry the usage counters. -/
theorem c3_client_returns_text_only (p : String) (imgs : List PageImage)
    (r : GeminiResponse) :
    get_gemini_response p imgs (Except.ok r) =
      { returned := some (clean_json_string r.text), errorShown := none } := rfl

/-- C3 counterexample: two successful calls that differ only in their usage
counters produce identical client results, so the counters are not surfaced
to the caller. -/
theorem c3_counterexample :
    get_gemini_response input_prompt [⟨0⟩] (Except.ok ⟨"\x7b\x7d", 10, 20, 30⟩) =
      get_gemini_response input_prompt [⟨0⟩] (Except.ok ⟨"\x7b\x7d", 1, 2, 3⟩) ∧
    (⟨"\x7b\x7d", 10, 20, 30⟩ : GeminiResponse) ≠ (⟨"\x7b\x7d", 1, 2, 3⟩ : GeminiResponse) :=
  ⟨rfl, by decide⟩

/-- C4: when the external call raises, the pipeline shows the service error
with its cause and no record is produced. -/
theorem c4_service_error (image_list : List PageImage) (e : String)
    (h : ¬image_list = []) :
    extract_button image_list (Except.error e) =
      PipelineOutcome.serviceError ("An error occurred with the Gemini API: " ++ e) ∧
    (extract_button image_list (Except.error e)).isSuccess = false := by
  constructor
  · simp [extract_button, get_gemini_response, h]
  · simp [extract_button, get_gemini_response, h, PipelineOutcome.isSuccess]

/-- C4 witness: a concrete failing call surfaces the service error. -/
theorem c4_witness :
    ¬([⟨0⟩] : List PageImage) = [] ∧
    extract_button [⟨0⟩] (Except.error "quota exceeded") =
      PipelineOutcome.serviceError
        ("An error occurred with the Gemini API: " ++ "quota exceeded") ∧
    (extract_button [⟨0⟩] (Except.error "quota exceeded")).isSuccess = false :=
  ⟨by decide, (c4_service_error [⟨0⟩] "quota exceeded" (by decide)).1,
    (c4_service_error [⟨0⟩] "quota exceeded" (by decide)).2⟩

/-- C10: a successful call whose text cleans to the empty string falls
through the handler's truthiness check: no record, no error report, nothing
shown at all. -/
theorem c10_empty_clean_is_silent (image_list : List PageImage)
    (r : GeminiResponse) (h : ¬image_list = [])
    (he : clean_json_string r.text = "") :
    extract_button image_list (Except.ok r) = PipelineOutcome.silent ∧
    (extract_button image_list (Except.ok r)).reportShown = false ∧
    (extract_button image_list (Except.ok r)).isSuccess = false := by
  refine ⟨?_, ?_, ?_⟩ <;>
    simp [extract_button, get_gemini_response, h, he,
      PipelineOutcome.reportShown, PipelineOutcome.isSuccess]

/-- C10 witness: a response consisting of bare fence markers cleans to the
empty string and ends the request silently. -/
theorem c10_witness :
    ¬([⟨0⟩] : List PageImage) = [] ∧
    clean_json_string "```json```" = "" ∧
    extract_button [⟨0⟩] (Except.ok ⟨"```json```", 5, 6, 11⟩) = PipelineOutcome.silent :=
  ⟨by decide, rfl,
    (c10_empty_clean_is_silent [⟨0⟩] ⟨"```json```", 5, 6, 11⟩ (by decide) rfl).1⟩

/-- C1 (amended): the handler fills in nothing. For every response whose
cleaned text parses to a JSON object with no `line_items` key, the displayed
record holds exactly the keys of the parsed object (no `"N/A"` insertion for
missing scalar keys) and the line-item section is the no-items warning
rather than an empty table. -/
theorem c1_no_default_filling (image_list : List PageImage) (r : GeminiResponse)
    (kvs : List (String × Json)) (h : ¬image_list = [])
    (hne : ¬clean_json_string r.text = "")
    (hp : json_loads (clean_json_string r.text) = some (Json.obj kvs))
    (hli : List.lookup "line_items" kvs = none) :
    extract_button image_list (Except.ok r) =
      PipelineOutcome.success (kvs.filter (fun kv => ¬(kv.1 = "line_items")))
        LineItemsView.noItemsWarning := by
  simp [extract_button, get_gemini_response, h, hne, hp, displayRecord, hli]

/-- C1 witness: the concrete input of the claim runs through the amended
statement. -/
theorem c1_witness :
    ¬([⟨0⟩] : List PageImage) = [] ∧
    json_loads (clean_json_string "\x7b\"invoice_id\": \"INV-1\"\x7d") =
      some (Json.obj [("invoice_id", Json.str "INV-1")]) ∧
    extract_button [⟨0⟩] (Except.ok ⟨"\x7b\"invoice_id\": \"INV-1\"\x7d", 0, 0, 0⟩) =
      PipelineOutcome.success
        ([("invoice_id", Json.str "INV-1")].filter (fun kv => ¬(kv.1 = "line_items")))
        LineItemsView.noItemsWarning :=
  ⟨by decide, rfl,
    c1_no_default_filling [⟨0⟩] ⟨"\x7b\"invoice_id\": \"INV-1\"\x7d", 0, 0, 0⟩
      [("invoice_id", Json.str "INV-1")] (by decide) (by decide) rfl rfl⟩

/-- C1 counterexample: on the claim's own test input (only `invoice_id`
present) the displayed record carries a single key — the other nine scalar
keys are not inserted as `"N/A"` (looking up `invoice_date` finds nothing),
and `line_items` is a warning, not a present-but-empty sequence. -/
theorem c1_counterexample :
    extract_button [⟨0⟩] (Except.ok ⟨"\x7b\"invoice_id\": \"INV-1\"\x7d", 0, 0, 0⟩) =
      PipelineOutcome.success [("invoice_id", Json.str "INV-1")]
        LineItemsView.noItemsWarning ∧
    List.lookup "invoice_date" [("invoice_id", Json.str "INV-1")] = none ∧
    List.length [("invoice_id", Json.str "INV-1")] = 1 :=
  ⟨rfl, rfl, rfl⟩

/-- C2 (amended): with images present and the call succeeding, the handler
ends in the malformed-response report — which shows the cleaned text —
exactly when the cleaned text is nonempty and fails to parse as JSON. A
parsed non-object top level instead raises `AttributeError` at `.items()`
and lands in the generic display-error report. -/
theorem c2_malformed_iff (image_list : List PageImage) (r : GeminiResponse)
    (h : ¬image_list = []) :
    (extract_button image_list (Except.ok r) =
        PipelineOutcome.malformedResponse (clean_json_string r.text)) ↔
      (¬clean_json_string r.text = "" ∧
        json_loads (clean_json_string r.text) = none) := by
  simp only [extract_button, get_gemini_response, if_neg h]
  by_cases ht : clean_json_string r.text = ""
  · simp [ht]
  · simp only [if_neg ht]
    cases hj : json_loads (clean_json_string r.text) with
    | none => simp [hj, ht]
    | some v =>
      cases v <;> simp [hj, ht]
      exact fun heq => displayRecord_ne_malformed _ _ _ heq

/-- C2 witness: the spec's own probe `"not json at all"` satisfies the
amended characterization. -/
theorem c2_witness :
    ¬([⟨0⟩] : List PageImage) = [] ∧
    (extract_button [⟨0⟩] (Except.ok ⟨"not json at all", 0, 0, 0⟩) =
        PipelineOutcome.malformedResponse (clean_json_string "not json at all") ↔
      (¬clean_json_string "not json at all" = "" ∧
        json_loads (clean_json_string "not json at all") = none)) :=
  ⟨by decide, c2_malformed_iff [⟨0⟩] ⟨"not json at all", 0, 0, 0⟩ (by decide)⟩

/-- C2 counterexample: a fenced top-level JSON array. It is valid JSON after
cleaning, so the claim requires no failure at all of the parse step, yet the
claim's "not a JSON object at the top level" case is demanded to be the
malformed-response error; the code instead reaches `.items()` on a list,
raising `AttributeError` into the generic display-error report — and what is
shown is the cleaned text `"[]"`, not the pre-normalization raw text. -/
theorem c2_counterexample :
    extract_button [⟨0⟩] (Except.ok ⟨"```json\n[]\n```", 0, 0, 0⟩) =
      PipelineOutcome.displayError "[]" ∧
    (extract_button [⟨0⟩] (Except.ok ⟨"```json\n[]\n```", 0, 0, 0⟩)).isMalformed = false ∧
    clean_json_string "```json\n[]\n```" = "[]" ∧
    json_loads "[]" = some (Json.arr []) :=
  ⟨rfl, rfl, rfl, rfl⟩

/-- C8 (amended): a PDF whose conversion raises is the handled decode
failure — error message, poppler warning, and stop; a non-PDF upload whose
`Image.open` raises aborts through an uncaught exception instead of the
handled report. In both cases the loader fails before any model call: the
outcome is independent of the model-call oracle. -/
theorem c8_decode_failures (u : UploadedFile) (c1 c2 : Except String GeminiResponse) :
    (∀ e, u.fileType = "application/pdf" → u.pdfPages = Except.error e →
      app_run u c1 = AppOutcome.decodeErrorStop ("Failed to process PDF file: " ++ e)
        "Please ensure you have installed the \x27poppler\x27 dependency correctly.") ∧
    (∀ e, ¬u.fileType = "application/pdf" → u.imageDecode = Except.error e →
      app_run u c1 = AppOutcome.uncaughtException e ∧
      (app_run u c1).isDecodeErrorStop = false) ∧
    (decodeFails u → app_run u c1 = app_run u c2) := by
  refine ⟨?_, ?_, ?_⟩
  · intro e hft hp
    simp [app_run, hft, hp]
  · intro e hft hi
    constructor <;> simp [app_run, hft, hi, AppOutcome.isDecodeErrorStop]
  · intro hd
    unfold decodeFails at hd
    by_cases hft : u.fileType = "application/pdf"
    · rw [if_pos hft] at hd
      obtain ⟨e, he⟩ := hd
      simp [app_run, hft, he]
    · rw [if_neg hft] at hd
      obtain ⟨e, he⟩ := hd
      simp [app_run, hft, he]

/-- C8 witness: a PDF whose rasterizer is missing surfaces the handled decode
error with the poppler warning. -/
theorem c8_witness :
    app_run ⟨"application/pdf", "inv.pdf", Except.error "Unable to get page count. Is poppler installed and in PATH?", Except.ok ⟨0⟩⟩
        (Except.ok ⟨"\x7b\x7d", 0, 0, 0⟩) =
      AppOutcome.decodeErrorStop
        ("Failed to process PDF file: " ++ "Unable to get page count. Is poppler installed and in PATH?")
        "Please ensure you have installed the \x27poppler\x27 dependency correctly." :=
  (c8_decode_failures
      ⟨"application/pdf", "inv.pdf", Except.error "Unable to get page count. Is poppler installed and in PATH?", Except.ok ⟨0⟩⟩
      (Except.ok ⟨"\x7b\x7d", 0, 0, 0⟩) (Except.error "unused")).1
    "Unable to get page count. Is poppler installed and in PATH?" rfl rfl

/-- C8 counterexample: a corrupt image upload. The decode failure aborts the
request before any model call, but through an uncaught `Image.open`
exception, not the handled `DocumentDecodeError` report the claim demands
for every undecodable upload. -/
theorem c8_counterexample :
    app_run ⟨"image/png", "x.png", Except.ok [], Except.error "cannot identify image file"⟩
        (Except.ok ⟨"\x7b\x7d", 0, 0, 0⟩) =
      AppOutcome.uncaughtException "cannot identify image file" ∧
    (app_run ⟨"image/png", "x.png", Except.ok [], Except.error "cannot identify image file"⟩
        (Except.ok ⟨"\x7b\x7d", 0, 0, 0⟩)).isDecodeErrorStop = false :=
  ⟨rfl, rfl⟩

/-- C9: a decoded PDF hands its page list to the pipeline unchanged (same
pages, same order, same count), and a decoded single image becomes exactly
the one-element page list holding the decoded image. -/
theorem c9_loader_pages (u : UploadedFile) (call : Except String GeminiResponse) :
    (∀ pages, u.fileType = "application/pdf" → u.pdfPages = Except.ok pages →
      ¬pages = [] →
      app_run u call = AppOutcome.ran pages (extract_button pages call)) ∧
    (∀ img, ¬u.fileType = "application/pdf" → u.imageDecode = Except.ok img →
      app_run u call = AppOutcome.ran [img] (extract_button [img] call)) := by
  constructor
  · intro pages hft hp hne
    cases pages with
    | nil => exact absurd rfl hne
    | cons a l => simp [app_run, hft, hp]
  · intro img hft hi
    simp [app_run, hft, hi]

/-- C9 witness: a two-page PDF reaches the pipeline as exactly those two
pages in order, and a single image as exactly itself. -/
theorem c9_witness :
    app_run ⟨"application/pdf", "inv.pdf", Except.ok [⟨1⟩, ⟨2⟩], Except.ok ⟨0⟩⟩
        (Except.ok ⟨"\x7b\x7d", 0, 0, 0⟩) =
      AppOutcome.ran [⟨1⟩, ⟨2⟩] (extract_button [⟨1⟩, ⟨2⟩] (Except.ok ⟨"\x7b\x7d", 0, 0, 0⟩)) ∧
    app_run ⟨"image/png", "inv.png", Except.ok [], Except.ok ⟨7⟩⟩
        (Except.ok ⟨"\x7b\x7d", 0, 0, 0⟩) =
      AppOutcome.ran [⟨7⟩] (extract_button [⟨7⟩] (Except.ok ⟨"\x7b\x7d", 0, 0, 0⟩)) ∧
    List.length ([⟨1⟩, ⟨2⟩] : List PageImage) = 2 :=
  ⟨(c9_loader_pages ⟨"application/pdf", "inv.pdf", Except.ok [⟨1⟩, ⟨2⟩], Except.ok ⟨0⟩⟩
      (Except.ok ⟨"\x7b\x7d", 0, 0, 0⟩)).1 [⟨1⟩, ⟨2⟩] rfl rfl (by decide),
   (c9_loader_pages ⟨"image/png", "inv.png", Except.ok [], Except.ok ⟨7⟩⟩
      (Except.ok ⟨"\x7b\x7d", 0, 0, 0⟩)).2 ⟨7⟩ (by decide) rfl,
   rfl⟩

/-! ### Round-trip lemmas: escaped strings -/

/-- Hexadecimal digits rendered by the serializer read back as themselves. -/
theorem hexVal_toHexChar : ∀ n, n < 16 → hexVal (toHexChar n) = some n := by decide

/-- One escaped character is parsed back to the character it encodes. -/
theorem parseJStringAux_escape_step (c : Char) (f : Nat) (acc rest : List Char) :
    parseJStringAux (f + 1) acc (escapeChar c ++ rest) =
      parseJStringAux f (c :: acc) rest := by
  by_cases h1 : c = '"'
  · subst h1; rfl
  by_cases h2 : c = '\\'
  · subst h2; rfl
  by_cases h3 : c = '\n'
  · subst h3; rfl
  by_cases h4 : c = '\r'
  · subst h4; rfl
  by_cases h5 : c = '\t'
  · subst h5; rfl
  by_cases h6 : c = '\x08'
  · subst h6; rfl
  by_cases h7 : c = '\x0c'
  · subst h7; rfl
  by_cases h8 : c.toNat < 0x20
  · have hesc : escapeChar c =
        ['\\', 'u', '0', '0', toHexChar (c.toNat / 16), toHexChar (c.toNat % 16)] := by
      simp [escapeChar, h1, h2, h3, h4, h5, h6, h7, h8]
    rw [hesc]
    show parseJStringAux (f + 1) acc
        ('\\' :: 'u' :: '0' :: '0' :: toHexChar (c.toNat / 16) ::
          toHexChar (c.toNat % 16) :: rest) = parseJStringAux f (c :: acc) rest
    have hv1 : hexVal (toHexChar (c.toNat / 16)) = some (c.toNat / 16) :=
      hexVal_toHexChar _ (by omega)
    have hv2 : hexVal (toHexChar (c.toNat % 16)) = some (c.toNat % 16) :=
      hexVal_toHexChar _ (Nat.mod_lt _ (by omega))
    have hhex : hex4 '0' '0' (toHexChar (c.toNat / 16)) (toHexChar (c.toNat % 16)) =
        some c.toNat := by
      simp only [hex4, (show hexVal '0' = some 0 by decide), hv1, hv2,
        Option.bind, Option.map]
      congr 1
      omega
    simp only [parseJStringAux, hhex]
    rw [if_neg (by omega)]
    rw [Char.ofNat_toNat]
  · have hesc : escapeChar c = [c] := by
      simp [escapeChar, h1, h2, h3, h4, h5, h6, h7, h8]
    rw [hesc]
    rw [parseJStringAux.eq_def]
    simp [h1, h2, h8]

/-- Every character escapes to at least one character. -/
theorem escapeChar_length_pos (c : Char) : 1 ≤ (escapeChar c).length := by
  unfold escapeChar
  repeat' split
  all_goals simp

/-- Escaping can only lengthen a character list. -/
theorem length_le_flatMap_escape (l : List Char) :
    l.length ≤ (l.flatMap escapeChar).length := by
  induction l with
  | nil => simp
  | cons c l ih =>
    rw [List.flatMap_cons, List.length_append, List.length_cons]
    have := escapeChar_length_pos c
    omega

/-- An escaped character run parses back to the characters it encodes,
stopping at the closing quote. -/
theorem parseJStringAux_escList (l : List Char) : ∀ f acc rest, l.length < f →
    parseJStringAux f acc (l.flatMap escapeChar ++ '"' :: rest) =
      some (⟨acc.reverse ++ l⟩, rest) := by
  induction l with
  | nil =>
    intro f acc rest hf
    match f, hf with
    | g + 1, _ => simp [parseJStringAux]
  | cons c l ih =>
    intro f acc rest hf
    match f, hf with
    | g + 1, hf =>
      rw [List.flatMap_cons, List.append_assoc, parseJStringAux_escape_step]
      rw [ih g (c :: acc) rest (by simp at hf; omega)]
      simp

/-- The string-body parser recovers a serialized string: the wrapper's
`length + 1` fuel dominates the character count. -/
theorem parseJString_escList (s : String) (rest : List Char) :
    parseJString (escList s ++ '"' :: rest) = some (s, rest) := by
  have hlen : s.data.length < (escList s ++ '"' :: rest).length + 1 := by
    have h1 := length_le_flatMap_escape s.data
    rw [List.length_append]
    simp only [escList, List.length_cons]
    omega
  rw [parseJString, escList] at *
  rw [parseJStringAux_escList s.data _ [] rest hlen]
  cases s
  simp

/-- A list headed by a non-whitespace character is not skipped. -/
theorem skipWs_cons_of (c : Char) (l : List Char) (h : isJsonWs c = false) :
    skipWs (c :: l) = c :: l := by simp [skipWs, h]

/-- The value parser recovers a serialized string at any successor fuel. -/
theorem parseValue_serStr (g : Nat) (s : String) (rest : List Char) :
    parseValue (g + 1) (serStr s ++ rest) = some (Json.str s, rest) := by
  have hshape : serStr s ++ rest = '"' :: (escList s ++ '"' :: rest) := by
    simp [serStr, List.append_assoc]
  rw [hshape]
  simp only [parseValue]
  rw [skipWs_cons_of _ _ (by decide)]
  simp [parseJString_escList]

/-- One string-valued member followed by a comma steps the member parser to
the rest of the member list, with the pair inserted. -/
theorem parseMembers_strMember_comma (g : Nat) (k v : String)
    (acc : List (String × Json)) (rest : List Char) :
    parseMembers (g + 2) (serMember k v ++ ',' :: rest) acc =
      parseMembers (g + 1) rest (objInsert acc k (Json.str v)) := by
  have hshape : serMember k v ++ ',' :: rest =
      '"' :: (escList k ++ '"' :: (':' :: (serStr v ++ ',' :: rest))) := by
    simp [serMember, serStr, List.append_assoc]
  rw [hshape]
  simp only [parseMembers]
  rw [skipWs_cons_of _ _ (by decide)]
  have hsk1 : skipWs (':' :: (serStr v ++ ',' :: rest)) =
      ':' :: (serStr v ++ ',' :: rest) := skipWs_cons_of _ _ (by decide)
  have hsk2 : skipWs (',' :: rest) = ',' :: rest := skipWs_cons_of _ _ (by decide)
  simp [parseJString_escList, hsk1, parseValue_serStr, hsk2]

/-- The final member of an object: any value parse that stops at the closing
bracket closes the object with the member inserted. -/
theorem parseMembers_lastMember (g : Nat) (k : String) (valText : List Char)
    (v : Json) (acc : List (String × Json)) (rest : List Char)
    (hval : parseValue g (valText ++ rbrace :: rest) = some (v, rbrace :: rest)) :
    parseMembers (g + 1) (serStr k ++ ':' :: (valText ++ rbrace :: rest)) acc =
      some (Json.obj (objInsert acc k v), rest) := by
  have hshape : serStr k ++ ':' :: (valText ++ rbrace :: rest) =
      '"' :: (escList k ++ '"' :: (':' :: (valText ++ rbrace :: rest))) := by
    simp [serStr, List.append_assoc]
  rw [hshape]
  simp only [parseMembers]
  rw [skipWs_cons_of _ _ (by decide)]
  have hsk1 : skipWs (':' :: (valText ++ rbrace :: rest)) =
      ':' :: (valText ++ rbrace :: rest) := skipWs_cons_of _ _ (by decide)
  have hsk2 : skipWs (rbrace :: rest) = rbrace :: rest :=
    skipWs_cons_of _ _ (by decide)
  simp [parseJString_escList, hsk1, hval, hsk2,
    (by decide : ¬(rbrace = ',')), (by decide : rbrace = rbrace)]

/-- A serialized member in head-normal form. -/
theorem serMember_cons (k v : String) (X : List Char) :
    serMember k v ++ X = '"' :: (escList k ++ '"' :: (':' :: (serStr v ++ X))) := by
  simp [serMember, serStr, List.append_assoc]

/-- A serialized member, reassociated around its colon. -/
theorem serMember_assoc (k v : String) (X : List Char) :
    serMember k v ++ X = serStr k ++ ':' :: (serStr v ++ X) := by
  simp [serMember, List.append_assoc]

/-- The value parser recovers one serialized line item at six extra fuel. -/
theorem parseValue_serItem (g : Nat) (it : LineItem) (rest : List Char) :
    parseValue (g + 6) (serItem it ++ rest) = some (LineItem.toJson it, rest) := by
  have hshape : serItem it ++ rest = lbrace :: (serItemInner it ++ rbrace :: rest) := by
    simp [serItem, List.append_assoc]
  have h1 : serItemInner it ++ rbrace :: rest =
      serMember "description" it.description ++
        ',' :: (serMember "quantity" it.quantity ++
          ',' :: (serMember "unit_price" it.unit_price ++
            ',' :: (serMember "line_total" it.line_total ++ rbrace :: rest))) := by
    simp [serItemInner, List.append_assoc]
  rw [hshape]
  show parseValue ((g + 5) + 1) _ = _
  simp only [parseValue]
  rw [skipWs_cons_of _ _ (by decide)]
  rw [h1, serMember_cons]
  simp only [(by decide : ¬(lbrace = '"')), (by decide : ¬(lbrace = '[')),
    if_false, ite_true, ite_false, eq_self_iff_true]
  rw [skipWs_cons_of _ _ (by decide)]
  simp only [(by decide : ¬('"' = rbrace)), if_false, ite_false]
  rw [← serMember_cons]
  rw [show g + 5 = (g + 3) + 2 from rfl, parseMembers_strMember_comma]
  rw [show (g + 3) + 1 = (g + 2) + 2 from rfl, parseMembers_strMember_comma]
  rw [show (g + 2) + 1 = (g + 1) + 2 from rfl, parseMembers_strMember_comma]
  rw [serMember_assoc, parseMembers_lastMember (g + 1) _ _ _ _ _
    (parseValue_serStr g it.line_total (rbrace :: rest))]
  rfl

/-- A serialized line item in head-normal form. -/
theorem serItem_cons (it : LineItem) (X : List Char) :
    serItem it ++ X = lbrace :: (serItemInner it ++ rbrace :: X) := by
  simp [serItem, List.append_assoc]

/-- One-step unfolding of the element parser at successor fuel. -/
theorem parseElems_step (f : Nat) (cs : List Char) (acc : List Json) :
    parseElems (f + 1) cs acc =
      (match parseValue f cs with
       | some (v, r) =>
         (match skipWs r with
          | c :: r2 =>
            if c = ',' then parseElems f r2 (acc ++ [v])
            else if c = ']' then some (Json.arr (acc ++ [v]), r2)
            else none
          | [] => none)
       | none => none) := rfl

/-- The element parser consumes a nonempty serialized item run up to the
closing bracket, appending the items to its accumulator. -/
theorem parseElems_serItems (items : List LineItem) : ∀ g acc rest, ¬items = [] →
    parseElems (g + items.length + 6) (serItems items ++ ']' :: rest) acc =
      some (Json.arr (acc ++ items.map LineItem.toJson), rest) := by
  induction items with
  | nil => intro g acc rest h; exact absurd rfl h
  | cons it its ih =>
    intro g acc rest h
    cases its with
    | nil =>
      rw [show g + [it].length + 6 = (g + 6) + 1 by simp]
      rw [parseElems_step]
      rw [show serItems [it] = serItem it from rfl]
      rw [parseValue_serItem g it (']' :: rest)]
      have hsk : skipWs (']' :: rest) = ']' :: rest := skipWs_cons_of _ _ (by decide)
      simp [hsk, (by decide : ¬(']' = ','))]
    | cons it2 its2 =>
      rw [show g + (it :: it2 :: its2).length + 6 =
          ((g + (it2 :: its2).length + 6)) + 1 by simp only [List.length_cons]; omega]
      have hs : serItems (it :: it2 :: its2) ++ ']' :: rest =
          serItem it ++ ',' :: (serItems (it2 :: its2) ++ ']' :: rest) := by
        simp [serItems, List.append_assoc]
      rw [hs, parseElems_step]
      rw [show g + (it2 :: its2).length + 6 = (g + (it2 :: its2).length) + 6 by omega]
      rw [parseValue_serItem (g + (it2 :: its2).length) it
        (',' :: (serItems (it2 :: its2) ++ ']' :: rest))]
      have hsk : skipWs (',' :: (serItems (it2 :: its2) ++ ']' :: rest)) =
          ',' :: (serItems (it2 :: its2) ++ ']' :: rest) := skipWs_cons_of _ _ (by decide)
      simp only [hsk, reduceIte]
      rw [show (g + (it2 :: its2).length) + 6 = g + (it2 :: its2).length + 6 by omega]
      rw [ih g (acc ++ [LineItem.toJson it]) rest (by simp)]
      simp

/-- One-step unfolding of the value parser at successor fuel. -/
theorem parseValue_step (f : Nat) (cs : List Char) :
    parseValue (f + 1) cs =
      (match skipWs cs with
       | [] => none
       | c :: rest =>
         if c = '"' then
           (match parseJString rest with
            | some (s, r) => some (Json.str s, r)
            | none => none)
         else if c = '[' then
           (match skipWs rest with
            | r0 :: r => if r0 = ']' then some (Json.arr [], r) else parseElems f rest []
            | [] => none)
         else if c = lbrace then
           (match skipWs rest with
            | r0 :: r => if r0 = rbrace then some (Json.obj [], r) else parseMembers f rest []
            | [] => none)
         else if c = 't' then
           (match rest with
            | 'r' :: 'u' :: 'e' :: r => some (Json.bool true, r)
            | _ => none)
         else if c = 'f' then
           (match rest with
            | 'a' :: 'l' :: 's' :: 'e' :: r => some (Json.bool false, r)
            | _ => none)
         else if c = 'n' then
           (match rest with
            | 'u' :: 'l' :: 'l' :: r => some (Json.null, r)
            | _ => none)
         else if c = 'N' then
           (match rest with
            | 'a' :: 'N' :: r => some (Json.num "NaN", r)
            | _ => none)
         else if c = 'I' then
           (match rest with
            | 'n' :: 'f' :: 'i' :: 'n' :: 'i' :: 't' :: 'y' :: r =>
              some (Json.num "Infinity", r)
            | _ => none)
         else if c = '-' then
           (match rest with
            | 'I' :: 'n' :: 'f' :: 'i' :: 'n' :: 'i' :: 't' :: 'y' :: r =>
              some (Json.num "-Infinity", r)
            | _ =>
              match parseNumber (c :: rest) with
              | some (lex, r) => some (Json.num ⟨lex⟩, r)
              | none => none)
         else
           (match parseNumber (c :: rest) with
            | some (lex, r) => some (Json.num ⟨lex⟩, r)
            | none => none)) := rfl

/-- The value parser recovers a serialized `line_items` array. -/
theorem parseValue_itemsArr (g : Nat) (items : List LineItem) (rest : List Char) :
    parseValue (g + items.length + 8) ('[' :: (serItems items ++ ']' :: rest)) =
      some (Json.arr (items.map LineItem.toJson), rest) := by
  rw [show g + items.length + 8 = (g + items.length + 7) + 1 by omega]
  rw [parseValue_step]
  rw [skipWs_cons_of _ _ (by decide)]
  cases items with
  | nil =>
    have hsk : skipWs (serItems [] ++ ']' :: rest) = ']' :: rest := by
      rw [show serItems [] ++ ']' :: rest = ']' :: rest from rfl]
      exact skipWs_cons_of _ _ (by decide)
    simp [hsk]
  | cons it its =>
    obtain ⟨Z, hZ⟩ : ∃ Z, serItems (it :: its) ++ ']' :: rest = lbrace :: Z := by
      cases its with
      | nil =>
        exact ⟨serItemInner it ++ rbrace :: (']' :: rest),
          by simp [serItems, serItem, List.append_assoc]⟩
      | cons a b =>
        exact ⟨serItemInner it ++ rbrace :: (',' :: (serItems (a :: b) ++ ']' :: rest)),
          by simp [serItems, serItem, List.append_assoc]⟩
    rw [hZ]
    have hsk2 : skipWs (lbrace :: Z) = lbrace :: Z := skipWs_cons_of _ _ (by decide)
    simp only [hsk2, reduceIte, (by decide : ¬('[' = '"')),
      (by decide : ¬(lbrace = ']'))]
    rw [← hZ]
    rw [show g + (it :: its).length + 7 = (g + 1) + (it :: its).length + 6 by
      simp only [List.length_cons]; omega]
    rw [parseElems_serItems (it :: its) (g + 1) [] rest (by simp)]
    simp

set_option maxHeartbeats 1000000 in
/-- The value parser recovers a full serialized InvoiceRecord. -/
theorem parseValue_serRecord (g : Nat) (R : InvoiceRecord) (rest : List Char) :
    parseValue (g + R.line_items.length + 21) (serRecordChars R ++ rest) =
      some (InvoiceRecord.toJson R, rest) := by
  rw [show g + R.line_items.length + 21 = (g + R.line_items.length + 20) + 1 by omega]
  have hshape : serRecordChars R ++ rest =
      lbrace :: (serRecordInner R ++ rbrace :: rest) := by
    simp [serRecordChars, List.append_assoc]
  rw [hshape, parseValue_step]
  rw [skipWs_cons_of _ _ (by decide)]
  have h1 : serRecordInner R ++ rbrace :: rest =
      serMember "invoice_id" R.invoice_id ++
        ',' :: (serMember "invoice_date" R.invoice_date ++
          ',' :: (serMember "due_date" R.due_date ++
            ',' :: (serMember "biller_name" R.biller_name ++
              ',' :: (serMember "biller_address" R.biller_address ++
                ',' :: (serMember "customer_name" R.customer_name ++
                  ',' :: (serMember "customer_address" R.customer_address ++
                    ',' :: (serMember "subtotal" R.subtotal ++
                      ',' :: (serMember "total_tax" R.total_tax ++
                        ',' :: (serMember "total_amount" R.total_amount ++
                          ',' :: (serItemsMember R.line_items ++
                            rbrace :: rest)))))))))) := by
    simp [serRecordInner, List.append_assoc]
  rw [h1, serMember_cons]
  simp only [(by decide : ¬(lbrace = '"')), (by decide : ¬(lbrace = '[')), reduceIte]
  rw [skipWs_cons_of _ _ (by decide)]
  simp only [(by decide : ¬('"' = rbrace)), reduceIte]
  rw [← serMember_cons]
  rw [show g + R.line_items.length + 20 = (g + R.line_items.length + 18) + 2 by omega,
    parseMembers_strMember_comma]
  rw [show (g + R.line_items.length + 18) + 1 = (g + R.line_items.length + 17) + 2 by omega,
    parseMembers_strMember_comma]
  rw [show (g + R.line_items.length + 17) + 1 = (g + R.line_items.length + 16) + 2 by omega,
    parseMembers_strMember_comma]
  rw [show (g + R.line_items.length + 16) + 1 = (g + R.line_items.length + 15) + 2 by omega,
    parseMembers_strMember_comma]
  rw [show (g + R.line_items.length + 15) + 1 = (g + R.line_items.length + 14) + 2 by omega,
    parseMembers_strMember_comma]
  rw [show (g + R.line_items.length + 14) + 1 = (g + R.line_items.length + 13) + 2 by omega,
    parseMembers_strMember_comma]
  rw [show (g + R.line_items.length + 13) + 1 = (g + R.line_items.length + 12) + 2 by omega,
    parseMembers_strMember_comma]
  rw [show (g + R.line_items.length + 12) + 1 = (g + R.line_items.length + 11) + 2 by omega,
    parseMembers_strMember_comma]
  rw [show (g + R.line_items.length + 11) + 1 = (g + R.line_items.length + 10) + 2 by omega,
    parseMembers_strMember_comma]
  rw [show (g + R.line_items.length + 10) + 1 = (g + R.line_items.length + 9) + 2 by omega,
    parseMembers_strMember_comma]
  have hitems : serItemsMember R.line_items ++ rbrace :: rest =
      serStr "line_items" ++
        ':' :: (('[' :: (serItems R.line_items ++ [']'])) ++ rbrace :: rest) := by
    simp [serItemsMember, List.append_assoc]
  rw [hitems]
  have hval : parseValue (g + R.line_items.length + 9)
      (('[' :: (serItems R.line_items ++ [']'])) ++ rbrace :: rest) =
      some (Json.arr (R.line_items.map LineItem.toJson), rbrace :: rest) := by
    have harr : ('[' :: (serItems R.line_items ++ [']'])) ++ rbrace :: rest =
        '[' :: (serItems R.line_items ++ ']' :: (rbrace :: rest)) := by
      simp [List.append_assoc]
    rw [harr]
    rw [show g + R.line_items.length + 9 = (g + 1) + R.line_items.length + 8 by omega]
    exact parseValue_itemsArr (g + 1) R.line_items (rbrace :: rest)
  rw [parseMembers_lastMember (g + R.line_items.length + 9) _ _ _ _ _ hval]
  simp [objInsert, InvoiceRecord.toJson]

/-- The leading fence marker never prefixes a list opening with a bracket. -/
theorem fence_not_prefix_lbrace (X : List Char) :
    fenceChars.isPrefixOf (lbrace :: X) = false := by
  rw [← Bool.not_eq_true, List.isPrefixOf_iff_prefix]
  rintro ⟨t, ht⟩
  have hfc : fenceChars = Char.ofNat 96 :: "``json".data := by decide
  rw [hfc] at ht
  simp only [List.cons_append] at ht
  injection ht with h1 _
  exact absurd h1 (by decide)

/-- The trailing fence marker never prefixes a reversal opening with a
closing bracket. -/
theorem tick_not_prefix_rbrace (X : List Char) :
    tickChars.isPrefixOf (rbrace :: X) = false := by
  rw [← Bool.not_eq_true, List.isPrefixOf_iff_prefix]
  rintro ⟨t, ht⟩
  have htc : tickChars = Char.ofNat 96 :: "``".data := by decide
  rw [htc] at ht
  simp only [List.cons_append] at ht
  injection ht with h1 _
  exact absurd h1 (by decide)

/-- Stripping changes nothing on a list with non-whitespace first and last
characters. -/
theorem pyStripChars_id (a : Char) (l : List Char) (b : Char)
    (ha : pySpace a = false) (hb : pySpace b = false) :
    pyStripChars (a :: (l ++ [b])) = a :: (l ++ [b]) := by
  unfold pyStripChars
  rw [List.dropWhile_cons, ha]
  simp only [Bool.false_eq_true, if_false]
  rw [show (a :: (l ++ [b])).reverse = b :: (l.reverse ++ [a]) by simp]
  rw [List.dropWhile_cons, hb]
  simp

/-- Cleanup is the identity on a serialized InvoiceRecord: no fence markers,
no surrounding whitespace. -/
theorem clean_json_string_serRecord (R : InvoiceRecord) :
    clean_json_string (serRecord R) = serRecord R := by
  show (⟨cleanChars (serRecordChars R)⟩ : String) = ⟨serRecordChars R⟩
  have h : cleanChars (serRecordChars R) = serRecordChars R := by
    unfold cleanChars serRecordChars
    rw [fence_not_prefix_lbrace]
    simp only [Bool.false_eq_true, if_false]
    rw [show (lbrace :: (serRecordInner R ++ [rbrace])).reverse =
        rbrace :: ((serRecordInner R).reverse ++ [lbrace]) by simp]
    rw [tick_not_prefix_rbrace]
    simp only [Bool.false_eq_true, if_false]
    exact pyStripChars_id lbrace (serRecordInner R) rbrace (by decide) (by decide)
  rw [h]

/-- Each serialized line item takes at least one character. -/
theorem serItem_length_pos (it : LineItem) : 1 ≤ (serItem it).length := by
  simp [serItem]

/-- A serialized item run is at least as long as the item count. -/
theorem length_le_serItems (items : List LineItem) :
    items.length ≤ (serItems items).length := by
  induction items with
  | nil => simp [serItems]
  | cons it its ih =>
    cases its with
    | nil =>
      have := serItem_length_pos it
      simp only [serItems, List.length_cons, List.length_nil]
      omega
    | cons a b =>
      have h1 := serItem_length_pos it
      simp only [serItems, List.length_append, List.length_cons] at *
      omega

/-- Parsing a serialized InvoiceRecord with the `json_loads` fuel succeeds:
the fuel dominates the record's member count. -/
theorem json_loads_serRecord (R : InvoiceRecord) :
    json_loads (serRecord R) = some (InvoiceRecord.toJson R) := by
  unfold json_loads
  have hlen : R.line_items.length + 21 ≤ 2 * (serRecord R).length + 2 := by
    have hK := length_le_serItems R.line_items
    have hrec : (serRecord R).length = (serRecordChars R).length := rfl
    rw [hrec]
    simp only [serRecordChars, serRecordInner, serMember, serStr, serItemsMember,
      List.length_append, List.length_cons, List.length_nil]
    omega
  obtain ⟨g, hg⟩ : ∃ g, 2 * (serRecord R).length + 2 = g + R.line_items.length + 21 :=
    ⟨2 * (serRecord R).length + 2 - (R.line_items.length + 21), by omega⟩
  rw [hg]
  have hp := parseValue_serRecord g R []
  rw [List.append_nil] at hp
  rw [show (serRecord R).data = serRecordChars R from rfl, hp]
  simp [skipWs]

/-- A line item survives the JSON round trip at the value level. -/
theorem LineItem_ofJson_toJson (it : LineItem) :
    LineItem.ofJson (LineItem.toJson it) = some it := by
  simp [LineItem.ofJson, LineItem.toJson, getStrKey, List.lookup]

/-- The `mapM` worker recovers line items entrywise over any accumulator. -/
theorem mapM_loop_ofJson_toJson (items : List LineItem) : ∀ acc,
    List.mapM.loop LineItem.ofJson (items.map LineItem.toJson) acc =
      some (acc.reverse ++ items) := by
  induction items with
  | nil => intro acc; simp [List.mapM.loop]
  | cons it its ih =>
    intro acc
    simp [List.mapM.loop, LineItem_ofJson_toJson, ih]

/-- A list of line items survives the JSON round trip entrywise. -/
theorem mapM_ofJson_toJson (items : List LineItem) :
    (items.map LineItem.toJson).mapM LineItem.ofJson = some items := by
  rw [List.mapM, mapM_loop_ofJson_toJson]
  simp

/-- An InvoiceRecord is recovered exactly from its JSON value. -/
theorem InvoiceRecord_ofJson_toJson (R : InvoiceRecord) :
    InvoiceRecord.ofJson (InvoiceRecord.toJson R) = some R := by
  simp [InvoiceRecord.ofJson, InvoiceRecord.toJson, getStrKey, List.lookup,
    mapM_loop_ofJson_toJson]

/-- C6: the Response Normalizer round trip. Serializing any InvoiceRecord
(ten scalar strings plus well-formed line items) to JSON text and running the
text through cleanup-then-parse recovers exactly the record's JSON value, and
that value determines the record: the composite yields a record equal to the
one serialized. -/
theorem c6_roundtrip (R : InvoiceRecord) :
    json_loads (clean_json_string (serRecord R)) = some (InvoiceRecord.toJson R) ∧
    InvoiceRecord.ofJson (InvoiceRecord.toJson R) = some R := by
  constructor
  · rw [clean_json_string_serRecord, json_loads_serRecord]
  · exact InvoiceRecord_ofJson_toJson R
